import Mathlib

/-!
Verification development for `portal/input/syslog/usyslog.py`.

The Python module is a CFFI binding around a C syslog parser
(`usyslog.c`, declared via `ffi.cdef` but not part of this repository's
Python sources) together with pure-Python consumer-side classes:
`SyslogMessageHead` (head/SD accumulator), the exception hierarchy
(`SyslogError`, `ParsingError`, `MessageHandlerError`), the module-level
`ffi.callback` functions, and the `Parser` wrapper class.

The pure-Python parts are embedded directly from the source.  The C
parser core is not in the sources, so where a property depends on it we
model it from the specification (those definitions say so in their doc
comments).
-/

namespace Usyslog

/-- Python runtime errors that the embedded methods can raise. -/
inductive PyErr where
  | attributeError (typeName attrName : String)
  | typeError (msg : String)
  | unicodeDecodeError
  deriving DecidableEq, Repr

/-- Python scalar values as they occur in this module: `str`, `int`,
`bytes` and `None`.  The head fields of `SyslogMessageHead` start life
as `str` (`''` from `reset`) and are overwritten with `int`/`bytes`
values by the `on_msg_head` callback. -/
inductive PyScalar where
  | str (s : String)
  | int (n : Nat)
  | bytes (b : List UInt8)
  | none
  deriving DecidableEq, Repr

/-! ## Python `dict` model

A Python `dict` is modelled as an association list in insertion order:
assigning to an existing key replaces its value in place, assigning to
a new key appends.  `dget` is `dict.get` / subscription, `dkeys` the
key view. -/

/-- `d[k] = v`: replace the first binding of `k`, else append. -/
def dinsert {α β : Type} [DecidableEq α] (k : α) (v : β) :
    List (α × β) → List (α × β)
  | [] => [(k, v)]
  | (k', v') :: t => if k = k' then (k, v) :: t else (k', v') :: dinsert k v t

/-- `d.get(k)`: first binding of `k`, if any. -/
def dget {α β : Type} [DecidableEq α] (k : α) : List (α × β) → Option β
  | [] => Option.none
  | (k', v') :: t => if k = k' then some v' else dget k t

/-- The keys of a dict, in insertion order. -/
def dkeys {α β : Type} (d : List (α × β)) : List α := d.map Prod.fst

/-- Apply `g` to the value of the first binding of `k` (identity when
`k` is absent). -/
def dmodify {α β : Type} [DecidableEq α] (k : α) (g : β → β) :
    List (α × β) → List (α × β)
  | [] => []
  | (k', v') :: t =>
      if k = k' then (k', g v') :: t else (k', v') :: dmodify k g t

theorem dget_dinsert_self {α β : Type} [DecidableEq α] (k : α) (v : β)
    (d : List (α × β)) : dget k (dinsert k v d) = some v := by
  induction d with
  | nil => simp [dinsert, dget]
  | cons hd t ih =>
      obtain ⟨k', v'⟩ := hd
      by_cases h : k = k' <;> simp [dinsert, dget, h, ih]

theorem dget_dinsert_ne {α β : Type} [DecidableEq α] {k k' : α} (v : β)
    (d : List (α × β)) (h : k' ≠ k) :
    dget k' (dinsert k v d) = dget k' d := by
  induction d with
  | nil => simp [dinsert, dget, h]
  | cons hd t ih =>
      obtain ⟨k'', v''⟩ := hd
      by_cases h1 : k = k''
      · subst h1; simp [dinsert, dget, h]
      · by_cases h2 : k' = k'' <;> simp [dinsert, dget, h1, h2, ih]

theorem dinsert_dinsert_same {α β : Type} [DecidableEq α] (k : α)
    (v w : β) (d : List (α × β)) :
    dinsert k w (dinsert k v d) = dinsert k w d := by
  induction d with
  | nil => simp [dinsert]
  | cons hd t ih =>
      obtain ⟨k', v'⟩ := hd
      by_cases h : k = k' <;> simp [dinsert, h, ih]

theorem mem_dkeys_dinsert {α β : Type} [DecidableEq α] {a k : α} (v : β)
    (d : List (α × β)) :
    a ∈ dkeys (dinsert k v d) ↔ a = k ∨ a ∈ dkeys d := by
  induction d with
  | nil => simp [dinsert, dkeys]
  | cons hd t ih =>
      obtain ⟨k', v'⟩ := hd
      by_cases h : k = k'
      · subst h; simp [dinsert, dkeys]
      · simp only [dinsert, if_neg h, dkeys, List.map_cons, List.mem_cons] at ih ⊢
        rw [ih]; tauto

theorem dkeys_dinsert_nodup {α β : Type} [DecidableEq α] (k : α) (v : β)
    (d : List (α × β)) (h : (dkeys d).Nodup) :
    (dkeys (dinsert k v d)).Nodup := by
  induction d with
  | nil => simp [dinsert, dkeys]
  | cons hd t ih =>
      obtain ⟨k', v'⟩ := hd
      by_cases h1 : k = k'
      · subst h1; simpa [dinsert, dkeys] using h
      · simp only [dkeys, List.map_cons, List.nodup_cons] at h
        simp only [dinsert, if_neg h1, dkeys, List.map_cons, List.nodup_cons]
        refine ⟨?_, ih h.2⟩
        intro hmem
        rcases (mem_dkeys_dinsert v t).mp hmem with rfl | hmem
        · exact h1 rfl
        · exact h.1 hmem

theorem dkeys_dmodify {α β : Type} [DecidableEq α] (k : α) (g : β → β)
    (d : List (α × β)) : dkeys (dmodify k g d) = dkeys d := by
  induction d with
  | nil => rfl
  | cons hd t ih =>
      obtain ⟨k', v'⟩ := hd
      by_cases h : k = k'
      · simp [dmodify, dkeys, h]
      · simp [dmodify, dkeys, h] at ih ⊢; exact ih

theorem mem_dmodify {α β : Type} [DecidableEq α] {k : α} {g : β → β}
    {d : List (α × β)} {e : α × β} :
    e ∈ dmodify k g d → e ∈ d ∨ ∃ e' ∈ d, e = (e'.1, g e'.2) := by
  induction d with
  | nil => intro he; simp [dmodify] at he
  | cons hd t ih =>
      intro he
      obtain ⟨k', v'⟩ := hd
      by_cases h : k = k'
      · subst h
        simp only [dmodify, if_true, eq_self_iff_true, List.mem_cons] at he
        rcases he with h1 | h1
        · exact Or.inr ⟨(k, v'), by simp, by simp [h1]⟩
        · exact Or.inl (List.mem_cons_of_mem _ h1)
      · simp only [dmodify, if_neg h, List.mem_cons] at he
        rcases he with h1 | h1
        · exact Or.inl (by simp [h1])
        · rcases ih h1 with h2 | ⟨e', he', h3⟩
          · exact Or.inl (List.mem_cons_of_mem _ h2)
          · exact Or.inr ⟨e', List.mem_cons_of_mem _ he', h3⟩

theorem dmodify_dmodify_same {α β : Type} [DecidableEq α] (k : α)
    (g g' : β → β) (d : List (α × β)) :
    dmodify k g (dmodify k g' d) = dmodify k (g ∘ g') d := by
  induction d with
  | nil => rfl
  | cons hd t ih =>
      obtain ⟨k', v'⟩ := hd
      by_cases h : k = k' <;> simp [dmodify, h, ih]

theorem mem_dinsert {α β : Type} [DecidableEq α] {k : α} {v : β}
    {d : List (α × β)} {e : α × β} :
    e ∈ dinsert k v d → e = (k, v) ∨ e ∈ d := by
  induction d with
  | nil => intro he; simpa [dinsert] using he
  | cons hd t ih =>
      intro he
      obtain ⟨k', v'⟩ := hd
      by_cases h : k = k'
      · subst h
        simp only [dinsert, if_true, eq_self_iff_true, List.mem_cons] at he
        rcases he with h1 | h1
        · exact Or.inl h1
        · exact Or.inr (List.mem_cons_of_mem _ h1)
      · simp only [dinsert, if_neg h, List.mem_cons] at he
        rcases he with h1 | h1
        · exact Or.inr (by simp [h1])
        · rcases ih h1 with h2 | h2
          · exact Or.inl h2
          · exact Or.inr (List.mem_cons_of_mem _ h2)

theorem dget_some_mem {α β : Type} [DecidableEq α] {k : α} {v : β}
    {d : List (α × β)} (h : dget k d = some v) : (k, v) ∈ d := by
  induction d with
  | nil => simp [dget] at h
  | cons hd t ih =>
      obtain ⟨k', v'⟩ := hd
      by_cases h1 : k = k'
      · subst h1
        simp [dget] at h
        simp [h]
      · simp [dget, h1] at h
        exact List.mem_cons_of_mem _ (ih h)

theorem dget_none_not_mem {α β : Type} [DecidableEq α] {k : α}
    {d : List (α × β)} (h : dget k d = Option.none) :
    ∀ v : β, (k, v) ∉ d := by
  intro v hv
  induction d with
  | nil => simp at hv
  | cons hd t ih =>
      obtain ⟨k', v'⟩ := hd
      by_cases h1 : k = k'
      · simp [dget, h1] at h
      · simp [dget, h1] at h
        rcases List.mem_cons.mp hv with h2 | h2
        · exact h1 (congrArg Prod.fst h2)
        · exact ih h h2

/-! ## Exceptions

Embedding of the exception classes `SyslogError`, `UnknownTypeError`,
`ParsingError` and `MessageHandlerError`.  Each carries the data its
`__init__` stores; `pyStrOfExc` is `str(exc)` (`SyslogError.__str__`
returns `self.msg`; `MessageHandlerError.__str__` overrides it). -/

inductive PyExcVal where
  | syslogError (msg : String)
  | unknownTypeError (msg : String)
  | parsingError (msg : String)
  | messageHandlerError (msg : String) (cause : String)
  deriving DecidableEq, Repr

/-- The `msg` attribute stored by `SyslogError.__init__` (all subclasses
delegate to it via `super().__init__`). -/
def PyExcVal.msgAttr : PyExcVal → String
  | .syslogError m => m
  | .unknownTypeError m => m
  | .parsingError m => m
  | .messageHandlerError m _ => m

/-- The `cause` attribute: only `MessageHandlerError.__init__` sets one. -/
def PyExcVal.causeAttr : PyExcVal → Option String
  | .messageHandlerError _ c => some c
  | _ => Option.none

/-- `str(exc)`: `SyslogError.__str__` returns `self.msg`;
`MessageHandlerError.__str__` returns
`'MessageHandler exception: \x7b\x7d - \x7b\x7d'.format(self.msg, self.cause)`. -/
def pyStrOfExc : PyExcVal → String
  | .messageHandlerError m c => "MessageHandler exception: " ++ m ++ " - " ++ c
  | e => e.msgAttr

/-! ## `SyslogMessageHead`

Value-level embedding of the consumer-side accumulator.  One modelling
note: in Python, `current_sde` is an alias of the dict object stored at
the most recently created element name — `create_sde` is the only
producer of element dicts and simultaneously stores the new dict in
`self.sd` and binds the alias, so the alias always equals
`self.sd[name]` for that name, and we represent it by the name.
`current_sd_field` may be `None` and `None` is a legal dict key, so
field keys are `Option String`. -/

structure SyslogMessageHead where
  priority : PyScalar
  version : PyScalar
  timestamp : PyScalar
  hostname : PyScalar
  appname : PyScalar
  processid : PyScalar
  messageid : PyScalar
  sd : List (String × List (Option String × PyScalar))
  current_sde : Option String
  current_sd_field : Option String
  deriving DecidableEq, Repr

namespace SyslogMessageHead

/-- `SyslogMessageHead.reset`: assigns every attribute, so the result
does not depend on the prior state. -/
def reset (_h : SyslogMessageHead) : SyslogMessageHead :=
  { priority := .str ""
    version := .str ""
    timestamp := .str ""
    hostname := .str ""
    appname := .str ""
    processid := .str ""
    messageid := .str ""
    sd := []
    current_sde := Option.none
    current_sd_field := Option.none }

/-- `SyslogMessageHead.__init__`: its whole body is `self.reset()`. -/
def initial : SyslogMessageHead :=
  reset { priority := .none, version := .none, timestamp := .none,
          hostname := .none, appname := .none, processid := .none,
          messageid := .none, sd := [], current_sde := Option.none,
          current_sd_field := Option.none }

/-- `get_sd`: `return self.sd.get(name)`.  Pure `dict.get`: it raises
nothing and mutates nothing, so the embedded method returns the result
together with the (unchanged) receiver state. -/
def get_sd (h : SyslogMessageHead) (name : String) :
    Except PyErr (Option (List (Option String × PyScalar)) × SyslogMessageHead) :=
  .ok (dget name h.sd, h)

/-- `create_sde`: `self.current_sde = dict(); self.sd[sd_name] = self.current_sde`. -/
def create_sde (h : SyslogMessageHead) (sd_name : String) : SyslogMessageHead :=
  { h with current_sde := some sd_name, sd := dinsert sd_name [] h.sd }

/-- `set_sd_field`: `self.current_sd_field = sd_fieldname`. -/
def set_sd_field (h : SyslogMessageHead) (sd_fieldname : String) : SyslogMessageHead :=
  { h with current_sd_field := some sd_fieldname }

/-- `set_sd_value`: `self.current_sde[self.current_sd_field] = value`.
When `current_sde` is `None` this raises
`TypeError: 'NoneType' object does not support item assignment`.
Otherwise it writes through the alias, i.e. into the element dict
stored at the aliased name (which `create_sde` guarantees is present in
`sd`). -/
def set_sd_value (h : SyslogMessageHead) (value : PyScalar) :
    Except PyErr SyslogMessageHead :=
  match h.current_sde with
  | Option.none =>
      .error (.typeError "NoneType object does not support item assignment")
  | some n =>
      .ok { h with sd := dmodify n (dinsert h.current_sd_field value) h.sd }

end SyslogMessageHead

/-- The sequence of SD-building calls a consumer (or the callback layer)
can make on a `SyslogMessageHead`. -/
inductive SDOp where
  | createSde (n : String)
  | setSdField (f : String)
  | setSdValue (v : PyScalar)
  deriving DecidableEq, Repr

/-- Run one SD operation (Python method call). -/
def runOp (h : SyslogMessageHead) : SDOp → Except PyErr SyslogMessageHead
  | .createSde n => .ok (h.create_sde n)
  | .setSdField f => .ok (h.set_sd_field f)
  | .setSdValue v => h.set_sd_value v

/-- Run a sequence of SD operations; an exception aborts the sequence. -/
def runOps (h : SyslogMessageHead) : List SDOp → Except PyErr SyslogMessageHead
  | [] => .ok h
  | op :: rest => match runOp h op with
      | .ok h' => runOps h' rest
      | .error e => .error e

theorem runOps_append (h : SyslogMessageHead) (a b : List SDOp) :
    runOps h (a ++ b) =
      match runOps h a with
      | .ok h' => runOps h' b
      | .error e => .error e := by
  induction a generalizing h with
  | nil => simp [runOps]
  | cons op rest ih =>
      simp only [List.cons_append, runOps]
      cases runOp h op with
      | ok h' => exact ih h'
      | error e => rfl

/-! ## The C parser core, modelled from the spec

`usyslog.c` / `usyslog.h` are compiled by `ffi.verify` but are not part
of this repository's sources; only the `ffi.cdef` declarations of
`syslog_parser`, `syslog_parser_settings`, `uslg_parser_init`,
`uslg_parser_exec` and `uslg_parser_reset` are.  The definitions in this
section are therefore modelled from the spec: the message-level state
machine of spec §4.3 (`START → PRIORITY → … → BODY → COMPLETE`, terminal
`ERROR`), the SD sub-grammar with escaping of §4.1/§8, the carry buffer
of §4.2 (here, the `buffer` field of the state accumulates the bytes of
the in-flight token, so a token split across `exec` calls is handled
exactly like an unsplit one), the error kinds of §7, and the delimiter
(`\n`) framing mode for message completion. -/

/-- Modelled from the spec: the message-level states of §4.3. -/
inductive MState where
  | START | PRIORITY | VERSION | TIMESTAMP | HOSTNAME | APPNAME
  | PROCESSID | MESSAGEID | SD_OR_BODY | SD_ELEMENT_NAME
  | SD_FIELD_NAME | SD_FIELD_VALUE | BODY | COMPLETE | ERROR
  deriving DecidableEq, Repr

/-- Modelled from the spec: the token-level sub-state used inside a
structured-data value (escape/quote handling, §4.1); `expectQuote`
awaits the opening quote after `=`, `closed` awaits the separator after
the closing quote. -/
inductive TState where
  | plain | esc | expectQuote | closed
  deriving DecidableEq, Repr

/-- Modelled from the spec: the error kinds of §7 (grammar errors plus
the callback abort). -/
inductive ErrKind where
  | malformedPriority | malformedVersion | missingSeparator
  | unterminatedStructuredData | invalidEscape | callbackAborted
  deriving DecidableEq, Repr

/-- The seven head fields as the C `syslog_msg_head` carries them at
`on_msg_head` time. -/
structure HeadData where
  priority : Nat
  version : Nat
  timestamp : List UInt8
  hostname : List UInt8
  appname : List UInt8
  processid : List UInt8
  messageid : List UInt8
  deriving DecidableEq, Repr

/-- Modelled from the spec: a callback invocation, identified by its
kind and (for data callbacks) the bytes of its span.  A span that
crossed a chunk boundary points into the carry buffer and one that did
not points into the chunk, but its byte content — which is what the
events record — is the same either way (§4.2). -/
inductive SEvent where
  | msgBegin
  | msgHead (h : HeadData)
  | sdElement (name : List UInt8)
  | sdField (name : List UInt8)
  | sdValue (value : List UInt8)
  | msg (bodyBytes : List UInt8)
  | msgComplete
  deriving DecidableEq, Repr

/-- Modelled from the spec: the `syslog_parser` state (§3).
`buffer` is the carry buffer holding the in-flight token;
`messageLength`/`remaining` are unused (zero) in delimiter framing. -/
structure PState where
  state : MState
  tokenState : TState
  error : Option ErrKind
  buffer : List UInt8
  priority : Nat
  version : Nat
  timestamp : List UInt8
  hostname : List UInt8
  appname : List UInt8
  processid : List UInt8
  messageid : List UInt8
  messageLength : Nat
  remaining : Nat
  deriving DecidableEq, Repr

/-- Modelled from the spec: `uslg_parser_init` zeroes the parser:
initial `START` state, no error, empty carry buffer. -/
def pinit : PState :=
  { state := .START, tokenState := .plain, error := Option.none,
    buffer := [], priority := 0, version := 0, timestamp := [],
    hostname := [], appname := [], processid := [], messageid := [],
    messageLength := 0, remaining := 0 }

/-- The callback table, abstracted to its observable effect on the
parser: whether the callback invoked on a given event returns a
non-zero abort signal. -/
def Settings : Type := SEvent → Bool

/-- Byte classification for the priority/version digits. -/
def isDigit (b : UInt8) : Bool := 48 ≤ b ∧ b ≤ 57

/-- Numeric value of an all-digit token. -/
def natOfDigits (l : List UInt8) : Nat :=
  l.foldl (fun acc d => acc * 10 + (d.toNat - 48)) 0

/-- Enter the terminal `ERROR` state with error kind `k` (spec §4.3:
a structural violation sets `error` and moves to `ERROR`). -/
def perr (st : PState) (k : ErrKind) : PState × List SEvent :=
  ({ st with state := .ERROR, error := some k }, [])

/-- Invoke a callback: the event is recorded, and a non-zero return is
treated like a structural violation (spec §4.3), with error kind
`callbackAborted` (spec §7). -/
def emit (cb : Settings) (st : PState) (e : SEvent) : PState × List SEvent :=
  if cb e then ({ st with state := .ERROR, error := some .callbackAborted }, [e])
  else (st, [e])

/-- Modelled from the spec: one tokenizer/state-machine step (§4.1,
§4.3).  Decides, from `state`/`tokenState` and the next byte only,
whether to consume-and-continue (accumulate into the carry buffer),
consume-and-emit (token complete), transition (structural delimiter),
or reject (malformed).  In the terminal states no byte is consumed. -/
def pstep (cb : Settings) (st : PState) (b : UInt8) : PState × List SEvent :=
  match st.state with
  | .START =>
      -- opening priority delimiter '<' fires on_msg_begin
      if b = 60 then emit cb { st with state := .PRIORITY, buffer := [] } .msgBegin
      else perr st .missingSeparator
  | .PRIORITY =>
      if isDigit b then
        if 3 ≤ st.buffer.length then perr st .malformedPriority
        else ({ st with buffer := st.buffer ++ [b] }, [])
      else if b = 62 then   -- '>'
        if st.buffer = [] then perr st .malformedPriority
        else if st.buffer.head? = some 48 ∧ 2 ≤ st.buffer.length then
          perr st .malformedPriority   -- leading zero
        else if 191 < natOfDigits st.buffer then perr st .malformedPriority
        else ({ st with state := .VERSION, buffer := [],
                        priority := natOfDigits st.buffer }, [])
      else perr st .malformedPriority
  | .VERSION =>
      if isDigit b then
        if 2 ≤ st.buffer.length then perr st .malformedVersion
        else ({ st with buffer := st.buffer ++ [b] }, [])
      else if b = 32 then   -- ' '
        if st.buffer = [] ∨ st.buffer.head? = some 48 then
          perr st .malformedVersion   -- empty or not a positive integer
        else ({ st with state := .TIMESTAMP, buffer := [],
                        version := natOfDigits st.buffer }, [])
      else perr st .malformedVersion
  | .TIMESTAMP =>
      if b = 32 then
        if st.buffer = [] then perr st .missingSeparator
        else ({ st with state := .HOSTNAME, buffer := [],
                        timestamp := st.buffer }, [])
      else ({ st with buffer := st.buffer ++ [b] }, [])
  | .HOSTNAME =>
      if b = 32 then
        if st.buffer = [] then perr st .missingSeparator
        else ({ st with state := .APPNAME, buffer := [],
                        hostname := st.buffer }, [])
      else ({ st with buffer := st.buffer ++ [b] }, [])
  | .APPNAME =>
      if b = 32 then
        if st.buffer = [] then perr st .missingSeparator
        else ({ st with state := .PROCESSID, buffer := [],
                        appname := st.buffer }, [])
      else ({ st with buffer := st.buffer ++ [b] }, [])
  | .PROCESSID =>
      if b = 32 then
        if st.buffer = [] then perr st .missingSeparator
        else ({ st with state := .MESSAGEID, buffer := [],
                        processid := st.buffer }, [])
      else ({ st with buffer := st.buffer ++ [b] }, [])
  | .MESSAGEID =>
      if b = 32 then
        if st.buffer = [] then perr st .missingSeparator
        else
          -- all seven head fields are now parsed: fire on_msg_head
          let st' := { st with state := .SD_OR_BODY, buffer := [],
                               messageid := st.buffer }
          emit cb st' (.msgHead
            { priority := st'.priority, version := st'.version,
              timestamp := st'.timestamp, hostname := st'.hostname,
              appname := st'.appname, processid := st'.processid,
              messageid := st'.messageid })
      else ({ st with buffer := st.buffer ++ [b] }, [])
  | .SD_OR_BODY =>
      if b = 91 then   -- '['
        ({ st with state := .SD_ELEMENT_NAME, buffer := [] }, [])
      else if b = 10 then   -- delimiter: empty body, message complete
        emit cb { st with state := .COMPLETE } .msgComplete
      else
        -- no opening SD bracket: directly to BODY (spec §4.3); the byte
        -- is body content
        emit cb { st with state := .BODY } (.msg [b])
  | .SD_ELEMENT_NAME =>
      if b = 32 then
        emit cb { st with state := .SD_FIELD_NAME, buffer := [] }
          (.sdElement st.buffer)
      else if b = 93 then   -- ']': element with no fields
        emit cb { st with state := .SD_OR_BODY, buffer := [] }
          (.sdElement st.buffer)
      else if b = 10 then perr st .unterminatedStructuredData
      else ({ st with buffer := st.buffer ++ [b] }, [])
  | .SD_FIELD_NAME =>
      if b = 61 then   -- '='
        emit cb { st with state := .SD_FIELD_VALUE, buffer := [],
                          tokenState := .expectQuote }
          (.sdField st.buffer)
      else if b = 10 then perr st .unterminatedStructuredData
      else if b = 93 ∨ b = 32 then perr st .missingSeparator
      else ({ st with buffer := st.buffer ++ [b] }, [])
  | .SD_FIELD_VALUE =>
      match st.tokenState with
      | .expectQuote =>
          if b = 34 then ({ st with tokenState := .plain }, [])
          else perr st .missingSeparator
      | .plain =>
          if b = 92 then ({ st with tokenState := .esc }, [])   -- '\'
          else if b = 34 then   -- unescaped '"' terminates the value
            emit cb { st with tokenState := .closed, buffer := [] }
              (.sdValue st.buffer)
          else if b = 93 then   -- unescaped ']' terminates value and element
            emit cb { st with state := .SD_OR_BODY, tokenState := .plain,
                              buffer := [] }
              (.sdValue st.buffer)
          else if b = 10 then perr st .unterminatedStructuredData
          else ({ st with buffer := st.buffer ++ [b] }, [])
      | .esc =>
          -- backslash escapes only '"', ']' and '\' (spec §4.1)
          if b = 34 ∨ b = 93 ∨ b = 92 then
            ({ st with buffer := st.buffer ++ [b], tokenState := .plain }, [])
          else perr st .invalidEscape
      | .closed =>
          if b = 32 then
            ({ st with state := .SD_FIELD_NAME, tokenState := .plain,
                       buffer := [] }, [])
          else if b = 93 then
            ({ st with state := .SD_OR_BODY, tokenState := .plain,
                       buffer := [] }, [])
          else perr st .missingSeparator
  | .BODY =>
      if b = 10 then emit cb { st with state := .COMPLETE } .msgComplete
      else emit cb st (.msg [b])
  | .COMPLETE => (st, [])   -- terminal until reset (spec §4.3)
  | .ERROR => (st, [])      -- no bytes consumed once error is set (§3)

/-- Modelled from the spec: the byte-consumption loop of
`uslg_parser_exec` — state transition and callback events, one byte at
a time.  All cross-call context lives in `PState` (spec §3: `state` and
`token_state` fully determine how the next byte is interpreted, the
carry buffer holds the in-flight token), which is what makes the result
independent of chunking. -/
def execSE (cb : Settings) (st : PState) : List UInt8 → PState × List SEvent
  | [] => (st, [])
  | b :: rest =>
      let s1 := pstep cb st b
      let s2 := execSE cb s1.1 rest
      (s2.1, s1.2 ++ s2.2)

/-- Modelled from the spec: the status of one `exec` call.  It
distinguishes "consumed cleanly", "consumed up to error at offset N"
(N bytes of this chunk were examined when the grammar error halted
consumption) and "aborted by callback" (spec §6). -/
inductive ExecStatus where
  | consumedCleanly
  | errorAt (offset : Nat) (kind : ErrKind)
  | abortedByCallback
  deriving DecidableEq, Repr

/-- Status derived from a halted state: a `callbackAborted` error is the
abort status, any other error carries the offset. -/
def statusOfState (st : PState) (i : Nat) : ExecStatus :=
  match st.error with
  | Option.none => .consumedCleanly
  | some .callbackAborted => .abortedByCallback
  | some k => .errorAt i k

/-- Modelled from the spec: the status computation of `uslg_parser_exec`
for one chunk (offset counts the bytes examined in this call before the
halt). -/
def execStatus (cb : Settings) (st : PState) (i : Nat) :
    List UInt8 → ExecStatus
  | [] => statusOfState st i
  | b :: rest =>
      if st.error.isSome then statusOfState st i
      else execStatus cb (pstep cb st b).1 (i + 1) rest

/-- Modelled from the spec: `uslg_parser_exec(parser, settings, data,
length)` — feed one chunk, invoking zero or more callbacks, and return
the resulting parser, the callback invocations, and the status. -/
def uslg_parser_exec (cb : Settings) (st : PState) (data : List UInt8) :
    PState × List SEvent × ExecStatus :=
  let r := execSE cb st data
  (r.1, r.2, execStatus cb st 0 data)

/-- Feed a list of chunks sequentially through `uslg_parser_exec`,
collecting all callback invocations in order. -/
def feedChunks (cb : Settings) (st : PState) :
    List (List UInt8) → PState × List SEvent
  | [] => (st, [])
  | c :: cs =>
      let r := uslg_parser_exec cb st c
      let r' := feedChunks cb r.1 cs
      (r'.1, r.2.1 ++ r'.2)

theorem execSE_append (cb : Settings) (st : PState) (a b : List UInt8) :
    execSE cb st (a ++ b) =
      ((execSE cb (execSE cb st a).1 b).1,
       (execSE cb st a).2 ++ (execSE cb (execSE cb st a).1 b).2) := by
  induction a generalizing st with
  | nil => simp [execSE]
  | cons x xs ih => simp [execSE, ih, List.append_assoc]

/-! ## The module-level ffi callbacks and the `Parser` class

`ffi.new_handle`/`ffi.from_handle` are modelled with an explicit handle
table mapping handle ids to the `SyslogMessageHead` consumer objects
they wrap; `from_handle` on a handle the table does not know is
undefined behaviour in cffi and is `Option.none` here. -/

/-- The handle table of live `ffi.new_handle` handles. -/
abbrev HandleTable : Type := List (Nat × SyslogMessageHead)

/-- `ffi.new_handle(obj)`: allocate a fresh handle bound to `obj`. -/
def newHandle (tbl : HandleTable) (obj : SyslogMessageHead) :
    Nat × HandleTable :=
  (tbl.length, tbl ++ [(tbl.length, obj)])

/-- `ffi.from_handle(ptr)`: recover the object a live handle wraps. -/
def fromHandle (tbl : HandleTable) (h : Nat) : Option SyslogMessageHead :=
  dget h tbl

/-- `ffi.string(cdata, maxlen)`: the bytes at `cdata`, up to the first
NUL byte and at most `maxlen` bytes. -/
def ffiString (cdata : List UInt8) (maxlen : Nat) : List UInt8 :=
  (cdata.take maxlen).takeWhile (fun b => b ≠ 0)

/-- The C `syslog_msg_head` as the `on_msg_head` callback reads it:
numeric priority/version and five `(pointer bytes, length)` fields. -/
structure CMsgHead where
  priority : Nat
  version : Nat
  timestamp : List UInt8
  timestamp_len : Nat
  hostname : List UInt8
  hostname_len : Nat
  appname : List UInt8
  appname_len : Nat
  processid : List UInt8
  processid_len : Nat
  messageid : List UInt8
  messageid_len : Nat
  deriving DecidableEq, Repr

/-- The `syslog_msg_head` contents corresponding to the head data of an
`on_msg_head` event (each length field holds its field's span length). -/
def cMsgHeadOf (hd : HeadData) : CMsgHead :=
  { priority := hd.priority, version := hd.version,
    timestamp := hd.timestamp, timestamp_len := hd.timestamp.length,
    hostname := hd.hostname, hostname_len := hd.hostname.length,
    appname := hd.appname, appname_len := hd.appname.length,
    processid := hd.processid, processid_len := hd.processid.length,
    messageid := hd.messageid, messageid_len := hd.messageid.length }

/-- The module-level `on_msg_begin` ffi callback: it prints a debug line
(I/O, outside the embedding) and returns 0.  It does not touch the
consumer objects in the handle table. -/
def on_msg_begin (tbl : HandleTable) : Int × HandleTable := (0, tbl)

/-- The module-level `on_msg_head` ffi callback: recovers the consumer
`SyslogMessageHead` from `parser.app_data` via `ffi.from_handle`, then
assigns all seven head fields from `parser.msg_head` (priority and
version as the C integers, the five string fields via
`ffi.string(ptr, len)`), and returns 0.  `Option.none` is the undefined
behaviour of `from_handle` on a dead handle. -/
def on_msg_head (tbl : HandleTable) (app_data : Nat) (ch : CMsgHead) :
    Option (Int × HandleTable) :=
  match fromHandle tbl app_data with
  | Option.none => Option.none
  | some msg_head =>
      let msg_head' :=
        { msg_head with
            priority := .int ch.priority,
            version := .int ch.version,
            timestamp := .bytes (ffiString ch.timestamp ch.timestamp_len),
            hostname := .bytes (ffiString ch.hostname ch.hostname_len),
            appname := .bytes (ffiString ch.appname ch.appname_len),
            processid := .bytes (ffiString ch.processid ch.processid_len),
            messageid := .bytes (ffiString ch.messageid ch.messageid_len) }
      some (0, dinsert app_data msg_head' tbl)

/-- The remaining module-level callbacks (`on_sd_element`, `on_sd_field`,
`on_sd_value`, `on_msg`, `on_msg_complete`) only print a debug line and
return 0: the handle table is untouched. -/
def on_other_callback (tbl : HandleTable) : Int × HandleTable := (0, tbl)

/-- The abort behaviour of the module-level callback table: every
callback returns 0, so no event aborts. -/
def pySettings : Settings := fun _ => false

/-- The `Parser` object: `__init__` creates `self._msg_head`, wraps it in
`self._msg_head_ctype = ffi.new_handle(...)`, allocates and inits
`self._cparser` with that handle as `app_data`, and fills
`self._cparser_settings` with the module-level callbacks. -/
structure PyParser where
  cstate : PState
  app_data : Nat
  table : HandleTable

/-- The attribute names `Parser.__init__` binds on `self`. -/
def parserAttrNames : List String :=
  ["_msg_head", "_msg_head_ctype", "_cparser", "_cparser_settings"]

/-- Python attribute lookup on a `Parser` instance: names not bound by
`__init__` (no other method binds any) raise `AttributeError`. -/
def parserGetattr (name : String) : Except PyErr String :=
  if name ∈ parserAttrNames then .ok name
  else .error (.attributeError "Parser" name)

/-- `Parser.__init__(msg_delegate)` on an empty handle table. -/
def parserInit : PyParser :=
  let msg_head := SyslogMessageHead.initial
  let h := newHandle [] msg_head
  { cstate := pinit, app_data := h.1, table := h.2 }

/-- Dispatch one C-side callback invocation to the Python callback
functions wired into `_cparser_settings` (only `on_msg_head` mutates a
consumer object; all others just print). -/
def dispatchEvent (app_data : Nat) (tbl : HandleTable) (e : SEvent) :
    HandleTable :=
  match e with
  | .msgBegin => (on_msg_begin tbl).2
  | .msgHead hd =>
      match on_msg_head tbl app_data (cMsgHeadOf hd) with
      | some r => r.2
      | Option.none => tbl
  | _ => (on_other_callback tbl).2

/-- `Parser.read(bytearray)`: calls
`lib.uslg_parser_exec(self._cparser, self._cparser_settings, bytearray,
len(bytearray))`, whose callbacks run against the handle table, and —
having no `return` statement — returns `None`; the exec status is
discarded. -/
def Parser.read (p : PyParser) (data : List UInt8) : PyParser × PyScalar :=
  let r := uslg_parser_exec pySettings p.cstate data
  let tbl' := r.2.1.foldl (fun t e => dispatchEvent p.app_data t e) p.table
  ({ p with cstate := r.1, table := tbl' }, PyScalar.none)

/-- `Parser.reset(self)`: its body is `self.cparser.reset()`.  The
attribute lookup of `cparser` (note: not `_cparser`) raises
`AttributeError` before anything else can happen, so the parser state is
never touched.  (Had the lookup succeeded, the cdata has no `reset`
method either; the C-side reset entry point is `lib.uslg_parser_reset`.) -/
def Parser.reset (p : PyParser) : Except PyErr PyParser :=
  match parserGetattr "cparser" with
  | .error e => .error e
  | .ok _ => .ok p   -- unreachable: `cparser` is not an attribute

/-! ## Heap-level model of `as_dict`

`as_dict` is about object identity: the returned dictionary's `'sd'`
entry must be a freshly built copy, per element and per field, so that
mutating it cannot reach the accumulator's own dicts.  The value-level
embedding above cannot express sharing, so this section refines the
`sd` part of `SyslogMessageHead` to dict *objects* in an explicit store:
addresses are allocated from a monotone counter, `self.sd` is an
address, and its entries reference per-element dict addresses.  String
keys only (the `as_dict` path never sees the `None` key case). -/

/-- A Python value stored in a dict slot: `str`, `bytes`, or a reference
to another dict object. -/
inductive PyObj where
  | str (s : String)
  | bytes (b : List UInt8)
  | dictRef (a : Nat)
  deriving DecidableEq, Repr

/-- The store of live dict objects. -/
structure Store where
  mem : List (Nat × List (String × PyObj))
  next : Nat
  deriving DecidableEq, Repr

/-- Read a dict object (dangling addresses read as empty — the model
never follows one under the well-formedness hypotheses). -/
def storeGet (σ : Store) (a : Nat) : List (String × PyObj) :=
  (dget a σ.mem).getD []

/-- Overwrite a dict object in place. -/
def storeSet (σ : Store) (a : Nat) (d : List (String × PyObj)) : Store :=
  { σ with mem := dinsert a d σ.mem }

/-- `dict()`: allocate a fresh empty-initialised dict object. -/
def alloc (σ : Store) (d : List (String × PyObj)) : Nat × Store :=
  (σ.next, { mem := dinsert σ.next d σ.mem, next := σ.next + 1 })

/-- Every allocated address is below the allocation counter. -/
def WfStore (σ : Store) : Prop :=
  ∀ e ∈ σ.mem, e.1 < σ.next

instance (σ : Store) : Decidable (WfStore σ) := by
  unfold WfStore; infer_instance

/-- UTF-8 decoding of a byte string, as `bytes.decode('utf-8')` does it:

`Option.none` on malformed sequences (overlong encodings, surrogates,
out-of-range code points, stray or missing continuation bytes). -/
def utf8Decode : List UInt8 → Option (List Char)
  | [] => some []
  | b :: rest =>
      if b.toNat < 128 then
        match utf8Decode rest with
        | some cs => some (Char.ofNat b.toNat :: cs)
        | Option.none => Option.none
      else if b.toNat < 192 then Option.none   -- stray continuation byte
      else if b.toNat < 224 then
        match rest with
        | c1 :: rest' =>
            if 128 ≤ c1.toNat ∧ c1.toNat < 192 then
              let cp := (b.toNat - 192) * 64 + (c1.toNat - 128)
              if 128 ≤ cp then
                match utf8Decode rest' with
                | some cs => some (Char.ofNat cp :: cs)
                | Option.none => Option.none
              else Option.none   -- overlong
            else Option.none
        | [] => Option.none
      else if b.toNat < 240 then
        match rest with
        | c1 :: c2 :: rest' =>
            if (128 ≤ c1.toNat ∧ c1.toNat < 192) ∧
               (128 ≤ c2.toNat ∧ c2.toNat < 192) then
              let cp := (b.toNat - 224) * 4096 + (c1.toNat - 128) * 64 +
                        (c2.toNat - 128)
              if 2048 ≤ cp ∧ ¬(55296 ≤ cp ∧ cp ≤ 57343) then
                match utf8Decode rest' with
                | some cs => some (Char.ofNat cp :: cs)
                | Option.none => Option.none
              else Option.none   -- overlong or surrogate
            else Option.none
        | _ => Option.none
      else if b.toNat < 248 then
        match rest with
        | c1 :: c2 :: c3 :: rest' =>
            if (128 ≤ c1.toNat ∧ c1.toNat < 192) ∧
               (128 ≤ c2.toNat ∧ c2.toNat < 192) ∧
               (128 ≤ c3.toNat ∧ c3.toNat < 192) then
              let cp := (b.toNat - 240) * 262144 + (c1.toNat - 128) * 4096 +
                        (c2.toNat - 128) * 64 + (c3.toNat - 128)
              if 65536 ≤ cp ∧ cp ≤ 1114111 then
                match utf8Decode rest' with
                | some cs => some (Char.ofNat cp :: cs)
                | Option.none => Option.none
              else Option.none
            else Option.none
        | _ => Option.none
      else Option.none

/-- `v.decode('utf-8')`: only `bytes` has `decode`; malformed UTF-8
raises `UnicodeDecodeError`; calling it on anything else raises
`AttributeError`. -/
def pyDecodeUtf8 : PyObj → Except PyErr String
  | .bytes b =>
      match utf8Decode b with
      | some cs => .ok (String.mk cs)
      | Option.none => .error .unicodeDecodeError
  | .str _ => .error (.attributeError "str" "decode")
  | .dictRef _ => .error (.attributeError "dict" "decode")

/-- `str(v)` on the scalar head fields, as `as_dict` applies it:
identity on `str`, decimal rendering of `int`, the `b'...'` repr of
`bytes` (printable ASCII other than backslash and the quote passes
through, the rest is hex-escaped), `'None'` for `None`. -/
def pyStrScalar : PyScalar → String
  | .str s => s
  | .int n => toString n
  | .none => "None"
  | .bytes b =>
      "b'" ++ String.join (b.map (fun c =>
        if c = 92 then "\\\\"
        else if c = 39 then "\\'"
        else if 32 ≤ c.toNat ∧ c.toNat < 127 then
          String.mk [Char.ofNat c.toNat]
        else "\\x" ++ String.mk [(Nat.toDigits 16 c.toNat).headI] ++
             String.mk [(Nat.toDigits 16 c.toNat).getLastI])) ++ "'"

/-- The scalar head attributes of the accumulator, together with the
heap-level `sd`: the address of the `self.sd` dict object, whose values
are `dictRef`s to the per-element dicts. -/
structure HeapHead where
  priority : PyScalar
  version : PyScalar
  timestamp : PyScalar
  hostname : PyScalar
  appname : PyScalar
  processid : PyScalar
  messageid : PyScalar
  sdAddr : Nat
  deriving DecidableEq, Repr

/-- The inner loop of `as_dict`:
`for sd_fieldname in self.sd[sd_name]: sd_copy[sd_name][sd_fieldname] =
self.sd[sd_name][sd_fieldname].decode('utf-8')` — copy each field of the
source element dict into the copy element dict at `copyAddr`, decoding
the value. -/
def copyFields (σ : Store) (copyAddr : Nat) :
    List (String × PyObj) → Except PyErr Store
  | [] => .ok σ
  | (f, v) :: rest =>
      match pyDecodeUtf8 v with
      | .error e => .error e
      | .ok s =>
          let σ' := storeSet σ copyAddr
            (dinsert f (PyObj.str s) (storeGet σ copyAddr))
          copyFields σ' copyAddr rest

/-- The outer loop of `as_dict`: for each `(sd_name, element)` entry of
`self.sd`, `sd_copy[sd_name] = dict()` then copy that element's fields.
Iterating the value of a non-dict entry raises `TypeError`. -/
def copySd (σ : Store) (sdCopyAddr : Nat) :
    List (String × PyObj) → Except PyErr Store
  | [] => .ok σ
  | (name, v) :: rest =>
      match v with
      | .dictRef a =>
          let r := alloc σ []
          let σ1 := storeSet r.2 sdCopyAddr
            (dinsert name (PyObj.dictRef r.1) (storeGet r.2 sdCopyAddr))
          match copyFields σ1 r.1 (storeGet σ1 a) with
          | .error e => .error e
          | .ok σ2 => copySd σ2 sdCopyAddr rest
      | _ => .error (.typeError "object is not iterable")

/-- `as_dict`: build `sd_copy = dict()`, build the result dictionary
(seven stringified head fields plus `'sd': sd_copy`), then run the copy
loops.  Returns the address of the result dictionary. -/
def as_dict (h : HeapHead) (σ : Store) : Except PyErr (Nat × Store) :=
  let rc := alloc σ []                      -- sd_copy = dict()
  let rd := alloc rc.2                      -- dictionary = { ... }
    [("priority", PyObj.str (pyStrScalar h.priority)),
     ("version", PyObj.str (pyStrScalar h.version)),
     ("timestamp", PyObj.str (pyStrScalar h.timestamp)),
     ("hostname", PyObj.str (pyStrScalar h.hostname)),
     ("appname", PyObj.str (pyStrScalar h.appname)),
     ("processid", PyObj.str (pyStrScalar h.processid)),
     ("messageid", PyObj.str (pyStrScalar h.messageid)),
     ("sd", PyObj.dictRef rc.1)]
  match copySd rd.2 rc.1 (storeGet rd.2 h.sdAddr) with
  | .error e => .error e
  | .ok σ' => .ok (rd.1, σ')

/-! ## Claim theorems -/

/-- A non-empty accumulator state: an element `ex` with one field,
as it stands mid-SD-parsing. -/
def headWithSd : SyslogMessageHead :=
  { SyslogMessageHead.initial with
      sd := [("ex", [(some "iut", PyScalar.str "3")])],
      current_sde := some "ex", current_sd_field := some "iut" }

/-- A callback table whose `on_msg_begin` returns a non-zero abort
signal (every other callback returns 0). -/
def abortOnMsgBegin : Settings := fun e =>
  match e with
  | .msgBegin => true
  | _ => false

/-- C1: `Parser.reset` does not return the parser to `START` and clears
nothing — its body `self.cparser.reset()` looks up the attribute
`cparser`, which `__init__` never bound (the parser cdata lives in
`_cparser`), so every call raises `AttributeError` before touching any
state.  The spec's reset behaviour is the C entry point
`uslg_parser_reset`, which the method never reaches. -/
theorem C1_parser_reset_raises_attribute_error (p : PyParser) :
    Parser.reset p = .error (PyErr.attributeError "Parser" "cparser") := by
  rfl

/-- C2 counterexample: `Parser.read` does not return a value that
distinguishes the three outcomes — it returns `None` for the cleanly
consumed chunk `"<"` and the same `None` for the chunk `"x"` that halts
with a grammar error at offset 1, although the statuses of the two
`uslg_parser_exec` calls differ. -/
theorem C2_counterexample_read_returns_nothing :
    (Parser.read parserInit [60]).2 = (Parser.read parserInit [120]).2 ∧
    (uslg_parser_exec pySettings parserInit.cstate [60]).2.2 =
      ExecStatus.consumedCleanly ∧
    (uslg_parser_exec pySettings parserInit.cstate [120]).2.2 =
      ExecStatus.errorAt 1 ErrKind.missingSeparator := by
  exact ⟨rfl, rfl, rfl⟩

/-- C2 (amended): the underlying `uslg_parser_exec` returns a status
value distinguishing the three outcomes — consumed cleanly, consumed up
to an error at a byte offset, aborted by a callback — but `Parser.read`,
which wraps it, discards that status and returns `None` for every input
chunk. -/
theorem C2_exec_status_three_outcomes (p : PyParser) (data : List UInt8) :
    (Parser.read p data).2 = PyScalar.none ∧
    (uslg_parser_exec pySettings pinit [60]).2.2 = ExecStatus.consumedCleanly ∧
    (uslg_parser_exec pySettings pinit [120]).2.2 =
      ExecStatus.errorAt 1 ErrKind.missingSeparator ∧
    (uslg_parser_exec abortOnMsgBegin pinit [60]).2.2 =
      ExecStatus.abortedByCallback ∧
    ExecStatus.consumedCleanly ≠ ExecStatus.errorAt 1 ErrKind.missingSeparator ∧
    ExecStatus.consumedCleanly ≠ ExecStatus.abortedByCallback ∧
    ExecStatus.errorAt 1 ErrKind.missingSeparator ≠ ExecStatus.abortedByCallback := by
  refine ⟨rfl, rfl, rfl, rfl, ?_, ?_, ?_⟩ <;> intro h <;> cases h

/-- C3: when `on_msg_head` fires, the consumer `SyslogMessageHead` is
recovered unchanged from the `app_data` handle bound at `Parser`
construction, and all seven head fields (priority, version, timestamp,
hostname, appname, processid, messageid) are set on it from the
parser's `msg_head` in that single invocation. -/
theorem C3_on_msg_head_sets_all_seven_fields (ch : CMsgHead) :
    fromHandle parserInit.table parserInit.app_data =
      some SyslogMessageHead.initial ∧
    on_msg_head parserInit.table parserInit.app_data ch =
      some (0, [(parserInit.app_data,
        { SyslogMessageHead.initial with
            priority := PyScalar.int ch.priority,
            version := PyScalar.int ch.version,
            timestamp := PyScalar.bytes (ffiString ch.timestamp ch.timestamp_len),
            hostname := PyScalar.bytes (ffiString ch.hostname ch.hostname_len),
            appname := PyScalar.bytes (ffiString ch.appname ch.appname_len),
            processid := PyScalar.bytes (ffiString ch.processid ch.processid_len),
            messageid := PyScalar.bytes (ffiString ch.messageid ch.messageid_len) })]) := by
  exact ⟨rfl, rfl⟩

/-- C4 counterexample: `on_msg_begin` does not reset the accumulator
state — run on a handle table holding an accumulator with a non-empty
`sd` mapping and non-`None` `current_sde`/`current_sd_field`, it leaves
that state exactly as it was, and that state is not the initial empty
one. -/
theorem C4_counterexample_on_msg_begin_does_not_reset :
    on_msg_begin [(0, headWithSd)] = (0, [(0, headWithSd)]) ∧
    headWithSd.sd ≠ [] ∧
    headWithSd ≠ SyslogMessageHead.initial := by
  refine ⟨rfl, by decide, by decide⟩

/-- C4 (amended): when `on_msg_begin` runs it leaves the Message Head
and SD accumulator state unchanged (its body only prints and returns
0); no reset of the seven head fields, the `sd` mapping, `current_sde`
or `current_sd_field` takes place there. -/
theorem C4_on_msg_begin_is_identity (tbl : HandleTable) :
    on_msg_begin tbl = (0, tbl) := rfl

/-- C6: a callback-raised abort is reported as `MessageHandlerError`, a
wrapped-cause error that stores the original cause, is a kind distinct
from the grammar-error kind `ParsingError`, and whose string form
contains both the message and the cause. -/
theorem C6_message_handler_error_wraps_cause (msg cause : String) :
    (PyExcVal.messageHandlerError msg cause).msgAttr = msg ∧
    (PyExcVal.messageHandlerError msg cause).causeAttr = some cause ∧
    (∀ m, PyExcVal.messageHandlerError msg cause ≠ PyExcVal.parsingError m) ∧
    pyStrOfExc (PyExcVal.messageHandlerError msg cause) =
      "MessageHandler exception: " ++ msg ++ " - " ++ cause :=
  ⟨rfl, rfl, fun _ h => PyExcVal.noConfusion h, rfl⟩

/-- C8: a freshly constructed `SyslogMessageHead` is exactly the state
`reset` produces — all seven head fields the empty string, `sd` an
empty dict, `current_sde` and `current_sd_field` `None` — and `reset`
is idempotent. -/
theorem C8_fresh_head_equals_reset_state (h : SyslogMessageHead) :
    SyslogMessageHead.initial = h.reset ∧
    h.reset.reset = h.reset ∧
    h.reset.priority = PyScalar.str "" ∧
    h.reset.version = PyScalar.str "" ∧
    h.reset.timestamp = PyScalar.str "" ∧
    h.reset.hostname = PyScalar.str "" ∧
    h.reset.appname = PyScalar.str "" ∧
    h.reset.processid = PyScalar.str "" ∧
    h.reset.messageid = PyScalar.str "" ∧
    h.reset.sd = [] ∧
    h.reset.current_sde = Option.none ∧
    h.reset.current_sd_field = Option.none :=
  ⟨rfl, rfl, rfl, rfl, rfl, rfl, rfl, rfl, rfl, rfl, rfl, rfl⟩

/-- C9: `get_sd` never raises and leaves the accumulator unchanged, and
its result is the stored element for the name when one exists and
`None` otherwise. -/
theorem C9_get_sd_total_and_pure (h : SyslogMessageHead) (name : String) :
    ∃ r, h.get_sd name = .ok (r, h) ∧
      (∀ m, r = some m → (name, m) ∈ h.sd) ∧
      (r = Option.none → ∀ m, (name, m) ∉ h.sd) := by
  refine ⟨dget name h.sd, rfl, ?_, ?_⟩
  · intro m hm
    exact dget_some_mem hm
  · intro hn
    exact dget_none_not_mem hn

/-- C5: chunk invariance.  For every byte stream and every way of
partitioning it into an ordered sequence of chunks, feeding the chunks
sequentially through `uslg_parser_exec` yields the same final parser
state and the identical sequence of callback invocations (same kinds,
same field contents) as feeding the whole stream in one call.  Taking
`st = pinit` and `chunks` any partition of a message M's bytes gives
the spec's statement. -/
theorem C5_chunk_invariance (cb : Settings) (st : PState)
    (chunks : List (List UInt8)) :
    feedChunks cb st chunks =
      ((uslg_parser_exec cb st chunks.flatten).1,
       (uslg_parser_exec cb st chunks.flatten).2.1) := by
  induction chunks generalizing st with
  | nil => rfl
  | cons c cs ih =>
      show ((feedChunks cb (execSE cb st c).1 cs).1,
            (execSE cb st c).2 ++ (feedChunks cb (execSE cb st c).1 cs).2) = _
      rw [ih]
      show ((execSE cb (execSE cb st c).1 cs.flatten).1,
            (execSE cb st c).2 ++ (execSE cb (execSE cb st c).1 cs.flatten).2) = _
      rw [show (c :: cs).flatten = c ++ cs.flatten from rfl]
      rw [show (uslg_parser_exec cb st (c ++ cs.flatten)).1 = (execSE cb st (c ++ cs.flatten)).1 from rfl,
          show (uslg_parser_exec cb st (c ++ cs.flatten)).2.1 = (execSE cb st (c ++ cs.flatten)).2 from rfl]
      rw [execSE_append]

/-! ### C7: uniqueness of SD element and field names -/

/-- The name-uniqueness invariant of the SD accumulator: element names
are unique in `sd`, and field names are unique within each element. -/
def SdInv (h : SyslogMessageHead) : Prop :=
  (dkeys h.sd).Nodup ∧ ∀ e ∈ h.sd, (dkeys e.2).Nodup

theorem sdInv_runOp {h h' : SyslogMessageHead} {op : SDOp}
    (hInv : SdInv h) (hr : runOp h op = .ok h') : SdInv h' := by
  obtain ⟨hk, he⟩ := hInv
  cases op with
  | createSde n =>
      cases hr
      refine ⟨dkeys_dinsert_nodup n [] h.sd hk, ?_⟩
      intro e hm
      rcases mem_dinsert hm with h1 | h1
      · subst h1; simp [dkeys]
      · exact he e h1
  | setSdField f =>
      cases hr
      exact ⟨hk, he⟩
  | setSdValue v =>
      unfold runOp SyslogMessageHead.set_sd_value at hr
      cases hc : h.current_sde with
      | none => rw [hc] at hr; cases hr
      | some n =>
          rw [hc] at hr
          cases hr
          refine ⟨by rw [dkeys_dmodify]; exact hk, ?_⟩
          intro e hm
          rcases mem_dmodify hm with h1 | ⟨e', he', h2⟩
          · exact he e h1
          · subst h2
            exact dkeys_dinsert_nodup _ _ _ (he e' he')

theorem sdInv_runOps {h h' : SyslogMessageHead} {ops : List SDOp}
    (hInv : SdInv h) (hr : runOps h ops = .ok h') : SdInv h' := by
  induction ops generalizing h with
  | nil => cases hr; exact hInv
  | cons op rest ih =>
      unfold runOps at hr
      cases ho : runOp h op with
      | ok h1 =>
          rw [ho] at hr
          exact ih (sdInv_runOp hInv ho) hr
      | error e => rw [ho] at hr; cases hr

theorem runOps_single (g : SyslogMessageHead) (x : SDOp) :
    runOps g [x] = runOp g x := by
  show (match runOp g x with
        | .ok h1 => runOps h1 []
        | .error e => .error e) = runOp g x
  cases runOp g x with
  | ok h1 => rfl
  | error e => rfl

theorem runOps_pair (g : SyslogMessageHead) (x y : SDOp) :
    runOps g [x, y] =
      (match runOp g x with
       | .ok h1 => runOp h1 y
       | .error e => .error e) := by
  show (match runOp g x with
        | .ok h1 => runOps h1 [y]
        | .error e => .error e) = _
  cases runOp g x with
  | ok h1 => exact runOps_single h1 y
  | error e => rfl

theorem setSdValue_last_wins (h : SyslogMessageHead) (v w : PyScalar) :
    (match runOp h (SDOp.setSdValue v) with
     | .ok h1 => runOp h1 (SDOp.setSdValue w)
     | .error e => .error e) = runOp h (SDOp.setSdValue w) := by
  have hcomp : ∀ (n : String) (f : Option String)
      (sd : List (String × List (Option String × PyScalar))),
      dmodify n (dinsert f w) (dmodify n (dinsert f v) sd) =
        dmodify n (dinsert f w) sd := by
    intro n f sd
    rw [dmodify_dmodify_same]
    have hfun : (dinsert f w ∘ dinsert f v) =
        (dinsert f w : List (Option String × PyScalar) →
          List (Option String × PyScalar)) := by
      funext d
      exact dinsert_dinsert_same _ _ _ d
    rw [hfun]
  show (match h.set_sd_value v with
        | .ok h1 => h1.set_sd_value w
        | .error e => .error e) = h.set_sd_value w
  unfold SyslogMessageHead.set_sd_value
  cases hc : h.current_sde with
  | none => rfl
  | some n => simp [hc, hcomp n h.current_sd_field h.sd]

/-- C7: for every sequence of `create_sde` / `set_sd_field` /
`set_sd_value` calls on a fresh `SyslogMessageHead` that completes
without raising, (i) element names are unique in `sd` and field names
are unique within each element, (ii) re-creating an element name
replaces it with a fresh empty element, and (iii) re-declaring a field
(two consecutive `set_sd_value` writes to the same current field) leaves
a single entry holding the later value — the second write subsumes the
first. -/
theorem C7_sd_names_unique (ops : List SDOp) (h' : SyslogMessageHead)
    (hr : runOps SyslogMessageHead.initial ops = .ok h') :
    ((dkeys h'.sd).Nodup ∧ ∀ e ∈ h'.sd, (dkeys e.2).Nodup) ∧
    (∀ n, runOps SyslogMessageHead.initial (ops ++ [SDOp.createSde n]) =
        .ok (h'.create_sde n) ∧
      dget n (h'.create_sde n).sd = some []) ∧
    (∀ v w, runOps SyslogMessageHead.initial
        (ops ++ [SDOp.setSdValue v, SDOp.setSdValue w]) =
      runOps SyslogMessageHead.initial (ops ++ [SDOp.setSdValue w])) := by
  refine ⟨sdInv_runOps ⟨by simp [SyslogMessageHead.initial, SyslogMessageHead.reset, dkeys], by simp [SyslogMessageHead.initial, SyslogMessageHead.reset]⟩ hr, ?_, ?_⟩
  · intro n
    constructor
    · rw [runOps_append, hr]
      exact runOps_single h' (SDOp.createSde n)
    · exact dget_dinsert_self n [] h'.sd
  · intro v w
    rw [runOps_append, runOps_append, hr]
    show runOps h' [SDOp.setSdValue v, SDOp.setSdValue w] =
      runOps h' [SDOp.setSdValue w]
    rw [runOps_pair, runOps_single]
    exact setSdValue_last_wins h' v w

/-- Applies C7 to the concrete call sequence
`create_sde "ex"; set_sd_field "iut"; set_sd_value "3"`. -/
theorem C7_sd_names_unique_witness :
    ((dkeys headWithSd.sd).Nodup ∧ ∀ e ∈ headWithSd.sd, (dkeys e.2).Nodup) ∧
    (runOps SyslogMessageHead.initial
        [SDOp.createSde "ex", SDOp.setSdField "iut",
         SDOp.setSdValue (PyScalar.str "3"), SDOp.createSde "ex2"] =
      .ok (headWithSd.create_sde "ex2") ∧
      dget "ex2" (headWithSd.create_sde "ex2").sd = some []) ∧
    (runOps SyslogMessageHead.initial
        [SDOp.createSde "ex", SDOp.setSdField "iut",
         SDOp.setSdValue (PyScalar.str "3"),
         SDOp.setSdValue (PyScalar.str "4"), SDOp.setSdValue (PyScalar.str "5")] =
      runOps SyslogMessageHead.initial
        [SDOp.createSde "ex", SDOp.setSdField "iut",
         SDOp.setSdValue (PyScalar.str "3"), SDOp.setSdValue (PyScalar.str "5")]) := by
  have t := C7_sd_names_unique
    [SDOp.createSde "ex", SDOp.setSdField "iut", SDOp.setSdValue (PyScalar.str "3")]
    headWithSd (by rfl)
  exact ⟨t.1, t.2.1 "ex2", t.2.2 (PyScalar.str "4") (PyScalar.str "5")⟩

/-! ### C10: `as_dict` builds a fresh copy and leaves the store frame -/

theorem storeGet_storeSet_self (σ : Store) (a : Nat)
    (d : List (String × PyObj)) : storeGet (storeSet σ a d) a = d := by
  simp [storeGet, storeSet, dget_dinsert_self]

theorem storeGet_storeSet_ne (σ : Store) (a : Nat)
    (d : List (String × PyObj)) {a' : Nat} (h : a' ≠ a) :
    storeGet (storeSet σ a d) a' = storeGet σ a' := by
  simp [storeGet, storeSet, dget_dinsert_ne _ _ h]

theorem storeGet_alloc_self (σ : Store) (d : List (String × PyObj)) :
    storeGet (alloc σ d).2 σ.next = d := by
  simp [storeGet, alloc, dget_dinsert_self]

theorem storeGet_alloc_ne (σ : Store) (d : List (String × PyObj))
    {a : Nat} (h : a ≠ σ.next) :
    storeGet (alloc σ d).2 a = storeGet σ a := by
  simp [storeGet, alloc, dget_dinsert_ne _ _ h]

/-- `copyFields` writes only to the element-copy dict: the allocation
counter and every other address are untouched. -/
theorem copyFields_frame (c : Nat) (fs : List (String × PyObj)) :
    ∀ σ σ' : Store, copyFields σ c fs = .ok σ' →
      σ'.next = σ.next ∧ ∀ a, a ≠ c → storeGet σ' a = storeGet σ a := by
  induction fs with
  | nil =>
      intro σ σ' h
      cases h
      exact ⟨rfl, fun a _ => rfl⟩
  | cons fv rest ih =>
      intro σ σ' h
      obtain ⟨f, v⟩ := fv
      unfold copyFields at h
      cases hd : pyDecodeUtf8 v with
      | error e => rw [hd] at h; cases h
      | ok s =>
          rw [hd] at h
          obtain ⟨h1, h2⟩ := ih _ _ h
          refine ⟨by rw [h1]; rfl, ?_⟩
          intro a ha
          rw [h2 a ha, storeGet_storeSet_ne _ _ _ ha]

/-- `copySd` only allocates fresh dicts and fills `sdCopyAddr`: the
counter grows, pre-existing addresses other than `sdCopyAddr` keep
their contents, and every entry it adds to the copy dict references a
dict allocated at or above the initial counter `n0`. -/
theorem copySd_spec (sc n0 : Nat) (entries : List (String × PyObj)) :
    ∀ σ σ' : Store, n0 ≤ σ.next → sc < σ.next →
      copySd σ sc entries = .ok σ' →
      σ.next ≤ σ'.next ∧
      (∀ a, a < σ.next → a ≠ sc → storeGet σ' a = storeGet σ a) ∧
      (∀ e ∈ storeGet σ' sc, e ∈ storeGet σ sc ∨
        ∃ b, e.2 = PyObj.dictRef b ∧ n0 ≤ b) := by
  induction entries with
  | nil =>
      intro σ σ' _ _ h
      cases h
      exact ⟨le_refl _, fun a _ _ => rfl, fun e he => Or.inl he⟩
  | cons nv rest ih =>
      intro σ σ' hn0 hsc h
      obtain ⟨name, v⟩ := nv
      unfold copySd at h
      cases v with
      | str s => cases h
      | bytes b => cases h
      | dictRef a =>
          simp only at h
          cases hcf : copyFields
              (storeSet (alloc σ []).2 sc
                (dinsert name (PyObj.dictRef (alloc σ []).1)
                  (storeGet (alloc σ []).2 sc)))
              (alloc σ []).1
              (storeGet
                (storeSet (alloc σ []).2 sc
                  (dinsert name (PyObj.dictRef (alloc σ []).1)
                    (storeGet (alloc σ []).2 sc))) a) with
          | error e => rw [hcf] at h; cases h
          | ok σ2 =>
              rw [hcf] at h
              obtain ⟨hn2, hf2⟩ := copyFields_frame _ _ _ _ hcf
              have hnext1 : (storeSet (alloc σ []).2 sc
                  (dinsert name (PyObj.dictRef (alloc σ []).1)
                    (storeGet (alloc σ []).2 sc))).next = σ.next + 1 := rfl
              have hσ2next : σ2.next = σ.next + 1 := by rw [hn2, hnext1]
              have hpre1 : n0 ≤ σ2.next := by
                rw [hσ2next]; exact le_trans hn0 (Nat.le_succ _)
              have hpre2 : sc < σ2.next := by
                rw [hσ2next]; exact lt_trans hsc (Nat.lt_succ_self _)
              obtain ⟨hle, hframe, hmem⟩ := ih _ _ hpre1 hpre2 h
              have hscne : sc ≠ (alloc σ []).1 := Nat.ne_of_lt hsc
              have hget2sc : storeGet σ2 sc =
                  dinsert name (PyObj.dictRef (alloc σ []).1)
                    (storeGet σ sc) := by
                rw [hf2 sc hscne, storeGet_storeSet_self,
                    storeGet_alloc_ne σ [] hscne]
              refine ⟨?_, ?_, ?_⟩
              · calc σ.next ≤ σ.next + 1 := Nat.le_succ _
                  _ = σ2.next := hσ2next.symm
                  _ ≤ σ'.next := hle
              · intro a' ha' hane
                have ha'2 : a' < σ2.next := by
                  rw [hσ2next]; exact lt_trans ha' (Nat.lt_succ_self _)
                have hane2 : a' ≠ (alloc σ []).1 := Nat.ne_of_lt ha'
                rw [hframe a' ha'2 hane, hf2 a' hane2,
                    storeGet_storeSet_ne _ _ _ hane,
                    storeGet_alloc_ne σ [] hane2]
              · intro e he
                rcases hmem e he with h1 | h1
                · rw [hget2sc] at h1
                  rcases mem_dinsert h1 with h2 | h2
                  · subst h2
                    exact Or.inr ⟨(alloc σ []).1, rfl, hn0⟩
                  · exact Or.inl h2
                · exact Or.inr h1

/-- C10: on a well-addressed accumulator (`sdAddr` below the allocation
counter), a successful `as_dict` (i) leaves every pre-existing dict
object — in particular the accumulator's `sd` dict and its element
dicts — unchanged, (ii) returns a freshly allocated dictionary whose
`'sd'` entry references the freshly allocated copy dict, (iii) fills
that copy only with references to dicts allocated by this call, so that
(iv) mutating any dict reachable from the returned structure leaves the
accumulator's `sd` mapping and its element dicts exactly as they were. -/
theorem C10_as_dict_fresh_copy (h : HeapHead) (σ : Store) (dAddr : Nat)
    (σ' : Store) (hwf : h.sdAddr < σ.next)
    (hok : as_dict h σ = .ok (dAddr, σ')) :
    (∀ a, a < σ.next → storeGet σ' a = storeGet σ a) ∧
    dAddr = σ.next + 1 ∧
    dget "sd" (storeGet σ' dAddr) = some (PyObj.dictRef σ.next) ∧
    (∀ e ∈ storeGet σ' σ.next, ∃ b, e.2 = PyObj.dictRef b ∧ σ.next ≤ b) ∧
    (∀ a d, σ.next ≤ a →
      storeGet (storeSet σ' a d) h.sdAddr = storeGet σ h.sdAddr ∧
      ∀ e ∈ storeGet σ h.sdAddr, ∀ b, e.2 = PyObj.dictRef b → b < σ.next →
        storeGet (storeSet σ' a d) b = storeGet σ b) := by
  unfold as_dict at hok
  simp only [] at hok
  cases hcs : copySd (alloc (alloc σ []).2
      [("priority", PyObj.str (pyStrScalar h.priority)),
       ("version", PyObj.str (pyStrScalar h.version)),
       ("timestamp", PyObj.str (pyStrScalar h.timestamp)),
       ("hostname", PyObj.str (pyStrScalar h.hostname)),
       ("appname", PyObj.str (pyStrScalar h.appname)),
       ("processid", PyObj.str (pyStrScalar h.processid)),
       ("messageid", PyObj.str (pyStrScalar h.messageid)),
       ("sd", PyObj.dictRef (alloc σ []).1)]).2
      (alloc σ []).1
      (storeGet (alloc (alloc σ []).2
        [("priority", PyObj.str (pyStrScalar h.priority)),
         ("version", PyObj.str (pyStrScalar h.version)),
         ("timestamp", PyObj.str (pyStrScalar h.timestamp)),
         ("hostname", PyObj.str (pyStrScalar h.hostname)),
         ("appname", PyObj.str (pyStrScalar h.appname)),
         ("processid", PyObj.str (pyStrScalar h.processid)),
         ("messageid", PyObj.str (pyStrScalar h.messageid)),
         ("sd", PyObj.dictRef (alloc σ []).1)]).2 h.sdAddr) with
  | error e => rw [hcs] at hok; cases hok
  | ok σ1 =>
      rw [hcs] at hok
      cases hok
      -- the two allocations: sd_copy at σ.next, the dictionary at σ.next+1
      have hnext2 : (alloc (alloc σ []).2
          [("priority", PyObj.str (pyStrScalar h.priority)),
           ("version", PyObj.str (pyStrScalar h.version)),
           ("timestamp", PyObj.str (pyStrScalar h.timestamp)),
           ("hostname", PyObj.str (pyStrScalar h.hostname)),
           ("appname", PyObj.str (pyStrScalar h.appname)),
           ("processid", PyObj.str (pyStrScalar h.processid)),
           ("messageid", PyObj.str (pyStrScalar h.messageid)),
           ("sd", PyObj.dictRef (alloc σ []).1)]).2.next = σ.next + 2 := rfl
      obtain ⟨hle, hframe, hmem⟩ := copySd_spec (alloc σ []).1 σ.next _ _ _
        (by rw [hnext2]; exact Nat.le_add_right _ _)
        (by rw [hnext2]; exact Nat.lt_add_of_pos_right (by omega)) hcs
      have hgets : ∀ a', a' < σ.next → storeGet σ' a' = storeGet σ a' := by
        intro a' ha'
        have h1 : a' ≠ (alloc σ []).1 := Nat.ne_of_lt ha'
        have h2 : a' ≠ σ.next + 1 :=
          Nat.ne_of_lt (Nat.lt_trans ha' (Nat.lt_succ_self _))
        rw [hframe a' (by rw [hnext2]; omega) h1,
            storeGet_alloc_ne _ _ h2, storeGet_alloc_ne σ [] h1]
      have hgetd : storeGet σ' (σ.next + 1) =
          [("priority", PyObj.str (pyStrScalar h.priority)),
           ("version", PyObj.str (pyStrScalar h.version)),
           ("timestamp", PyObj.str (pyStrScalar h.timestamp)),
           ("hostname", PyObj.str (pyStrScalar h.hostname)),
           ("appname", PyObj.str (pyStrScalar h.appname)),
           ("processid", PyObj.str (pyStrScalar h.processid)),
           ("messageid", PyObj.str (pyStrScalar h.messageid)),
           ("sd", PyObj.dictRef (alloc σ []).1)] := by
        have h1 : (σ.next + 1) ≠ (alloc σ []).1 := Nat.succ_ne_self σ.next
        rw [hframe (σ.next + 1) (by rw [hnext2]; omega) h1]
        exact storeGet_alloc_self _ _
      refine ⟨hgets, rfl, ?_, ?_, ?_⟩
      · show dget "sd" (storeGet σ' (σ.next + 1)) = some (PyObj.dictRef σ.next)
        rw [hgetd]
        rfl
      · intro e he
        rcases hmem e he with h1 | h1
        · -- the copy dict starts empty: no pre-existing entries
          have hempty : storeGet (alloc (alloc σ []).2
              [("priority", PyObj.str (pyStrScalar h.priority)),
               ("version", PyObj.str (pyStrScalar h.version)),
               ("timestamp", PyObj.str (pyStrScalar h.timestamp)),
               ("hostname", PyObj.str (pyStrScalar h.hostname)),
               ("appname", PyObj.str (pyStrScalar h.appname)),
               ("processid", PyObj.str (pyStrScalar h.processid)),
               ("messageid", PyObj.str (pyStrScalar h.messageid)),
               ("sd", PyObj.dictRef (alloc σ []).1)]).2 (alloc σ []).1 = [] := by
            show storeGet (alloc (alloc σ []).2
              [("priority", PyObj.str (pyStrScalar h.priority)),
               ("version", PyObj.str (pyStrScalar h.version)),
               ("timestamp", PyObj.str (pyStrScalar h.timestamp)),
               ("hostname", PyObj.str (pyStrScalar h.hostname)),
               ("appname", PyObj.str (pyStrScalar h.appname)),
               ("processid", PyObj.str (pyStrScalar h.processid)),
               ("messageid", PyObj.str (pyStrScalar h.messageid)),
               ("sd", PyObj.dictRef (alloc σ []).1)]).2 σ.next = []
            rw [storeGet_alloc_ne ((alloc σ []).2) _
              (show σ.next ≠ ((alloc σ []).2).next from
                Nat.ne_of_lt (Nat.lt_succ_self _))]
            exact storeGet_alloc_self σ []
          rw [hempty] at h1
          cases h1
        · obtain ⟨b, hb1, hb2⟩ := h1
          exact ⟨b, hb1, hb2⟩
      · intro a d ha
        have h1 : h.sdAddr ≠ a := Nat.ne_of_lt (Nat.lt_of_lt_of_le hwf ha)
        refine ⟨by rw [storeGet_storeSet_ne _ _ _ h1, hgets _ hwf], ?_⟩
        intro e _ b _ hb
        have h2 : b ≠ a := Nat.ne_of_lt (Nat.lt_of_lt_of_le hb ha)
        rw [storeGet_storeSet_ne _ _ _ h2, hgets _ hb]

/-- A concrete accumulator for exercising `as_dict`: one SD element
`ex` (dict object 1) with one field `iut` holding the bytes `"3"`. -/
def sampleHeapHead : HeapHead :=
  { priority := .str "", version := .str "", timestamp := .str "",
    hostname := .str "", appname := .str "", processid := .str "",
    messageid := .str "", sdAddr := 0 }

/-- The store backing `sampleHeapHead`. -/
def sampleStore : Store :=
  { mem := [(0, [("ex", PyObj.dictRef 1)]), (1, [("iut", PyObj.bytes [51])])],
    next := 2 }

/-- The store after `as_dict sampleHeapHead sampleStore`: the copy dict
at address 2, the result dictionary at 3, the copied element at 4. -/
def sampleStoreAfter : Store :=
  { mem := [(0, [("ex", PyObj.dictRef 1)]), (1, [("iut", PyObj.bytes [51])]),
            (2, [("ex", PyObj.dictRef 4)]),
            (3, [("priority", PyObj.str ""), ("version", PyObj.str ""),
                 ("timestamp", PyObj.str ""), ("hostname", PyObj.str ""),
                 ("appname", PyObj.str ""), ("processid", PyObj.str ""),
                 ("messageid", PyObj.str ""), ("sd", PyObj.dictRef 2)]),
            (4, [("iut", PyObj.str "3")])],
    next := 5 }

/-- Applies C10 to the concrete accumulator: its `sd` dict and element
dict survive `as_dict` unchanged, the result's `'sd'` entry is the
fresh dict 2, and overwriting the fresh element copy (address 4) leaves
the accumulator's `sd` dict intact. -/
theorem C10_as_dict_fresh_copy_witness :
    storeGet sampleStoreAfter 0 = storeGet sampleStore 0 ∧
    dget "sd" (storeGet sampleStoreAfter 3) = some (PyObj.dictRef 2) ∧
    storeGet (storeSet sampleStoreAfter 4 []) 0 = storeGet sampleStore 0 := by
  have t := C10_as_dict_fresh_copy sampleHeapHead sampleStore 3
    sampleStoreAfter (by decide) (by rfl)
  exact ⟨t.1 0 (by decide), t.2.2.1, (t.2.2.2.2 4 [] (by decide)).1⟩

end Usyslog
